import Mathlib

/-!
Verification of the saphyr-parser YAML writer (`src/scalar.rs`, `src/writer.rs`,
`src/writer/write_stack.rs`, `src/writer/write_event.rs`, `src/writer/write_error.rs`,
`src/writer/writer_state_error.rs`) against its specification.

The Rust code is shallowly embedded: the output sink (`&mut dyn fmt::Write`) is a `String`
accumulator (writes to a `String` sink never fail, so the `FmtError` variant is never
produced in this model), machine integers are `Int` with explicit 64-bit range checks,
and each `StackFrame::run` method becomes a pure function from writer state to writer
state plus an optional error.
-/

/-- Alias for the text payload type, used inside inductives whose constructors shadow
the name `String`. -/
abbrev Text := String

/-- Rust `str::starts_with(&str)`. -/
def strStartsWith (s p : String) : Bool := p.data.isPrefixOf s.data

/-- Rust `str::ends_with(&str)` / `str::ends_with(char)`. -/
def strEndsWith (s p : String) : Bool := p.data.isSuffixOf s.data

/-- Rust `str::strip_prefix` composed with the use sites: drop the first `n` characters. -/
def strDrop (s : String) (n : Nat) : String := String.mk (s.data.drop n)

/-- Rust `char::to_digit(radix)`. -/
def digitVal (radix : Nat) (c : Char) : Option Nat :=
  let v : Nat :=
    if '0' ≤ c ∧ c ≤ '9' then c.toNat - '0'.toNat
    else if 'a' ≤ c ∧ c ≤ 'z' then c.toNat - 'a'.toNat + 10
    else if 'A' ≤ c ∧ c ≤ 'Z' then c.toNat - 'A'.toNat + 10
    else 99
  if v < radix then some v else none

/-- Rust `i64::from_str_radix(s, radix)` (and `str::parse::<i64>()` at radix 10):
an optional `+`/`-` sign, one or more digits of the radix, magnitude within the
signed 64-bit range.  Overflow during Rust's checked accumulation happens exactly
when the exact integer value lies outside the `i64` range, so the model computes
the exact value and range-checks it. -/
def parse_i64_radix (radix : Nat) (s : String) : Option Int :=
  let signDigits : Bool × List Char :=
    match s.data with
    | '+' :: r => (false, r)
    | '-' :: r => (true, r)
    | r => (false, r)
  let neg := signDigits.1
  let ds := signDigits.2
  if ds.isEmpty then none
  else
    match ds.foldl (fun acc c =>
        match acc, digitVal radix c with
        | some n, some d => some (n * radix + d)
        | _, _ => none) (some 0) with
    | none => none
    | some n =>
      let v : Int := if neg then -(n : Int) else (n : Int)
      if -9223372036854775808 ≤ v ∧ v ≤ 9223372036854775807 then some v else none

/-- Digit run at the front of a character list (helper for the float grammar). -/
def takeDigits (cs : List Char) : List Char := cs.takeWhile Char.isDigit

/-- Rest after the digit run at the front (helper for the float grammar). -/
def dropDigits (cs : List Char) : List Char := cs.dropWhile Char.isDigit

/-- The optional exponent part of Rust's `f64` grammar: empty, or `e`/`E`,
an optional sign, and one or more digits. -/
def check_exp : List Char → Bool
  | [] => true
  | c :: r =>
    (c = 'e' || c = 'E') &&
      (let r2 := match r with
        | s :: t => if s = '+' || s = '-' then t else s :: t
        | [] => ([] : List Char)
      !r2.isEmpty && r2.all Char.isDigit)

/-- The `Number` production of Rust's `f64` grammar:
`Count '.'? Exp?` or `'.' Count Exp?` or `Count '.' Count Exp?`. -/
def check_number (cs : List Char) : Bool :=
  let d1 := takeDigits cs
  let r := dropDigits cs
  match r with
  | '.' :: r2 =>
    let d2 := takeDigits r2
    let r3 := dropDigits r2
    (!d1.isEmpty || !d2.isEmpty) && check_exp r3
  | _ => !d1.isEmpty && check_exp r

/-- Rust `str::parse::<f64>().is_ok()`: optional sign, then a case-insensitive
`inf`/`infinity`/`nan` keyword or a decimal number with optional exponent.
Parsing an in-grammar string never fails (overflow rounds to infinity), so
success is purely syntactic. -/
def is_valid_f64 (s : String) : Bool :=
  let cs := match s.data with
    | '+' :: r => r
    | '-' :: r => r
    | r => r
  let low := cs.map Char.toLower
  low = "inf".data || low = "infinity".data || low = "nan".data || check_number cs

/-- `ScalarValue::parse_f64` from `src/scalar.rs`, reduced to definedness:
the writer only ever uses whether the result is `Some` (the float value itself
is discarded), so the model returns that Boolean. -/
def parse_f64_some (v : String) : Bool :=
  if v = ".inf" || v = ".Inf" || v = ".INF" || v = "+.inf" || v = "+.Inf" || v = "+.INF" then
    true
  else if v = "-.inf" || v = "-.Inf" || v = "-.INF" then true
  else if v = ".nan" || v = "NaN" || v = ".NAN" then true
  else is_valid_f64 v

/-- `ScalarValue` from `src/scalar.rs`.  The `Cow<str>` payloads become plain
strings: borrowed versus owned text is a memory-management distinction with no
observable effect on the writer's output. -/
inductive ScalarValue where
  | Real (text : Text)
  | String (text : Text)
  | Boolean (b : Bool)
  | Integer (i : Int)
  | Null
  | BadValue
deriving DecidableEq

/-- The integer attempted by the three `strip_prefix` branches at the top of
`ScalarValue::from_cow_str`: `0x` (base 16), else `0o` (base 8), else `+`
(base 10); `none` when no prefix matches or the remainder fails to parse. -/
def prefix_radix_int (v : String) : Option Int :=
  if strStartsWith v "0x" then parse_i64_radix 16 (strDrop v 2)
  else if strStartsWith v "0o" then parse_i64_radix 8 (strDrop v 2)
  else if strStartsWith v "+" then parse_i64_radix 10 (strDrop v 1)
  else none

/-- `ScalarValue::from_cow_str` from `src/scalar.rs`. -/
def from_cow_str (v : String) : ScalarValue :=
  match prefix_radix_int v with
  | some i => ScalarValue.Integer i
  | none =>
    if v = "~" || v = "null" then ScalarValue.Null
    else if v = "true" then ScalarValue.Boolean true
    else if v = "false" then ScalarValue.Boolean false
    else
      match parse_i64_radix 10 v with
      | some i => ScalarValue.Integer i
      | none =>
        if parse_f64_some v then ScalarValue.Real v else ScalarValue.String v

/-- Modelled from the spec: `TScalarStyle`, the parser-side scalar style enum, is
referenced by `src/scalar.rs` but its defining module is not under `src/`.  The spec
distinguishes the plain style from quoted (single or double) and block (literal or
folded) styles; `from_scalar_event` only tests plain versus non-plain. -/
inductive TScalarStyle where
  | Plain
  | SingleQuoted
  | DoubleQuoted
  | Literal
  | Folded
deriving DecidableEq

/-- Modelled from the spec: `Tag`, the parser-side tag type, is referenced by
`src/scalar.rs` but its defining module is not under `src/`.  The spec describes a
tag as a handle (tag family) plus a suffix. -/
structure Tag where
  handle : Text
  suffix : Text
deriving DecidableEq

/-- `ScalarValue::from_scalar_event` from `src/scalar.rs`.  `value.parse::<bool>()`
accepts exactly the strings `true` and `false`. -/
def from_scalar_event (value : Text) (style : TScalarStyle) (_anchor_id : Nat)
    (tag : Option Tag) : ScalarValue :=
  match style with
  | TScalarStyle.Plain =>
    match tag with
    | some t =>
      if t.handle = "tag:yaml.org,2002:" then
        if t.suffix = "bool" then
          if value = "true" then ScalarValue.Boolean true
          else if value = "false" then ScalarValue.Boolean false
          else ScalarValue.BadValue
        else if t.suffix = "int" then
          match parse_i64_radix 10 value with
          | some i => ScalarValue.Integer i
          | none => ScalarValue.BadValue
        else if t.suffix = "float" then
          if parse_f64_some value then ScalarValue.Real value else ScalarValue.BadValue
        else if t.suffix = "null" then
          if value = "~" || value = "null" then ScalarValue.Null else ScalarValue.BadValue
        else ScalarValue.String value
      else ScalarValue.String value
    | none => from_cow_str value
  | _ => ScalarValue.String value

/-- The character class of the `string.contains(closure)` test in `need_quotes`
(`src/writer/write_stack.rs`): special punctuation, quotes, backslash, and the
control ranges `\0`-`\x06`, tab, newline, carriage return, `\x0e`-`\x1a`,
`\x1c`-`\x1f`. -/
def need_quotes_char (c : Char) : Bool :=
  c = ':' || c = '{' || c = '}' || c = '[' || c = ']' || c = ',' || c = '#' || c = '`' ||
  c = '\"' || c = '\'' || c = '\\' ||
  (c.toNat ≤ 0x06) || c = '\t' || c = '\n' || c = '\r' ||
  (0x0e ≤ c.toNat && c.toNat ≤ 0x1a) || (0x1c ≤ c.toNat && c.toNat ≤ 0x1f)

/-- The leading-character class of the `string.starts_with(closure)` test in
`need_quotes`. -/
def need_quotes_first_char (c : Char) : Bool :=
  c = '&' || c = '*' || c = '?' || c = '|' || c = '-' || c = '<' || c = '>' ||
  c = '=' || c = '!' || c = '%' || c = '@'

/-- Rust `str::starts_with(char_closure)`: the string is nonempty and its first
character satisfies the closure. -/
def startsWithChar (s : String) (p : Char → Bool) : Bool :=
  match s.data with
  | [] => false
  | c :: _ => p c

/-- The reserved boolean/null literal array in `need_quotes`
(`src/writer/write_stack.rs`). -/
def reservedLiterals : List String :=
  ["yes", "Yes", "YES", "no", "No", "NO", "True", "TRUE", "true", "False", "FALSE",
   "false", "on", "On", "ON", "off", "Off", "OFF",
   "null", "Null", "NULL", "~"]

/-- `need_quotes` from `src/writer/write_stack.rs`. -/
def need_quotes (s : String) : Bool :=
  s.data.isEmpty
  || (strStartsWith s " " || strEndsWith s " ")
  || startsWithChar s need_quotes_first_char
  || s.data.any need_quotes_char
  || reservedLiterals.contains s
  || strStartsWith s "."
  || strStartsWith s "0x"
  || (parse_i64_radix 10 s).isSome
  || is_valid_f64 s

/-- Lowercase hex digit for `\uXXXX` escapes. -/
def hexDigitChar (n : Nat) : Char :=
  if n < 10 then Char.ofNat ('0'.toNat + n) else Char.ofNat ('a'.toNat + (n - 10))

/-- The `\u00XX` escape form used by `escape_str`. -/
def uescape (c : Char) : List Char :=
  ['\\', 'u', '0', '0', hexDigitChar (c.toNat / 16), hexDigitChar (c.toNat % 16)]

/-- Per-character escaping of `escape_str` from `src/writer/write_stack.rs`.
The Rust function walks UTF-8 bytes, but every escaped byte is ASCII and ASCII
bytes occur in UTF-8 only as standalone characters, so a per-character model
produces the identical string. -/
def escape_char (c : Char) : List Char :=
  if c = '\"' then ['\\', '\"']
  else if c = '\\' then ['\\', '\\']
  else if c = '\x08' then ['\\', 'b']
  else if c = '\t' then ['\\', 't']
  else if c = '\n' then ['\\', 'n']
  else if c = '\x0c' then ['\\', 'f']
  else if c = '\r' then ['\\', 'r']
  else if c.toNat ≤ 0x1f || c.toNat = 0x7f then uescape c
  else [c]

/-- `escape_str` from `src/writer/write_stack.rs`, as the string it writes. -/
def escape_str (v : String) : String :=
  String.mk ('\"' :: (v.data.flatMap escape_char) ++ ['\"'])

/-- Split at `\n` separators, keeping empty pieces (helper for `rustLines`). -/
def splitNewlines : List Char → List Char → List (List Char)
  | [], acc => [acc.reverse]
  | '\n' :: rest, acc => acc.reverse :: splitNewlines rest []
  | c :: rest, acc => splitNewlines rest (c :: acc)

/-- Rust `str::lines()`: split after each `\n`, then strip the `\n` from each
piece and, only when a `\n` was stripped, one trailing `\r` (a `\r\n` ending).
A final piece not terminated by `\n` is returned verbatim — a lone trailing
`\r` stays in the line — and is omitted only when empty (the final line ending
is optional).  Here the split already removed the `\n` separators, so every
piece except the last was `\n`-terminated: those lose one trailing `\r`; the
last is kept as is, or dropped when empty. -/
def rustLines (s : String) : List String :=
  let parts := splitNewlines s.data []
  let body := parts.dropLast.map (fun l =>
    String.mk (if l.getLast? = some '\r' then l.dropLast else l))
  match parts.getLast? with
  | some [] => body
  | some l => body ++ [String.mk l]
  | none => body

/-- Modelled from the spec: `char_traits::is_valid_literal_block_scalar` is called by
`run_scalar` (`src/writer/write_stack.rs`) but the `char_traits` module is not under
`src/`.  The spec describes the check as rejecting strings with lines containing only
whitespace, or whitespace at line boundaries, that the block-scalar grammar cannot
reproduce: here, every line must be empty or free of leading and trailing
space/tab. -/
def is_valid_literal_block_scalar (s : String) : Bool :=
  (rustLines s).all (fun l =>
    l.data.isEmpty ||
      (!(startsWithChar l (fun c => c = ' ' || c = '\t')) &&
        !(match l.data.getLast? with
          | some c => c = ' ' || c = '\t'
          | none => false)))

/-- `WriteEvent` from `src/writer/write_event.rs`. -/
inductive WriteEvent where
  | Nothing
  | StreamStart
  | StreamEnd
  | DocumentStart
  | DocumentEnd
  | SequenceStart
  | SequenceEnd
  | MappingStart
  | MappingEnd
  | Scalar (v : ScalarValue)
deriving DecidableEq

/-- `WriteStateErrorType` from `src/writer/writer_state_error.rs`. -/
inductive WriteStateErrorType where
  | Start
  | End
  | DocumentList
  | DocumentEnd
  | Document
  | Sequence
  | Mapping
  | MappingEntryValue
  | ExistingError
deriving DecidableEq

/-- `WriterStateError` from `src/writer/writer_state_error.rs`. -/
structure WriterStateError where
  state_type : WriteStateErrorType
  event : WriteEvent
deriving DecidableEq

/-- `WriteError` from `src/writer/write_error.rs`.  Writes to the `String` sink of
this model never fail, so `FmtError` is never produced; it is kept so the error
type mirrors the source enum. -/
inductive WriteError where
  | FmtError
  | StateError (e : WriterStateError)
deriving DecidableEq

/-- `WriteError::new_state_error`. -/
def stErr (t : WriteStateErrorType) (e : WriteEvent) : WriteError :=
  WriteError.StateError ⟨t, e⟩

/-- `StackFrame` from `src/writer/write_stack.rs`.  Each frame struct carries at
most one Boolean, so the frame structs collapse into constructor arguments. -/
inductive StackFrame where
  | Start
  | End
  | Docs (first : Bool)
  | Doc
  | DocEnd
  | Sequence (first : Bool)
  | Mapping (first : Bool)
  | MappingItemValue (complex_key : Bool)
  | ValSequence (inline : Bool)
  | ValMapping (inline : Bool)
deriving DecidableEq

/-- `YamlWriter` from `src/writer.rs`, with the output sink replaced by the string
written so far. -/
structure YamlWriter where
  out : Text
  ident_size : Nat
  compact : Bool
  multiline_strings : Bool
  omit_first_doc_separator : Bool
  level : Int
  stack : List StackFrame
deriving DecidableEq

/-- `YamlWriter::new` from `src/writer.rs`. -/
def YamlWriter.new : YamlWriter :=
  { out := ""
    ident_size := 2
    compact := true
    multiline_strings := true
    omit_first_doc_separator := true
    level := -1
    stack := [StackFrame.Start] }

/-- `write!(parent.writer(), ...)` / `write_str`: append to the sink. -/
def YamlWriter.write (w : YamlWriter) (s : String) : YamlWriter :=
  { w with out := w.out ++ s }

/-- `writeln!(parent.writer())`: append a newline. -/
def YamlWriter.writeln (w : YamlWriter) : YamlWriter := w.write "\n"

/-- `YamlWriter::stack_push`. -/
def YamlWriter.push (w : YamlWriter) (f : StackFrame) : YamlWriter :=
  { w with stack := f :: w.stack }

/-- The indentation string `write_indent` produces at a given level and width. -/
def indentStr (level : Int) (sz : Nat) : String :=
  if level ≤ 0 then "" else String.mk (List.replicate (level.toNat * sz) ' ')

/-- `YamlWriter::write_indent` from `src/writer.rs`: nothing at level ≤ 0, else
`level * ident_size` spaces. -/
def YamlWriter.write_indent (w : YamlWriter) : YamlWriter :=
  if w.level ≤ 0 then w
  else w.write (String.mk (List.replicate (w.level.toNat * w.ident_size) ' '))

/-- The body of the line loop in `write_literal_block`: newline, indentation,
then the line text unescaped. -/
def blockLineStep (w : YamlWriter) (line : String) : YamlWriter :=
  ((w.writeln).write_indent).write line

/-- `write_literal_block` from `src/writer/write_stack.rs`. -/
def write_literal_block (w : YamlWriter) (v : String) : YamlWriter :=
  let w1 := if strEndsWith v "\n" then w.write "|" else w.write "|-"
  let w2 := { w1 with level := w1.level + 1 }
  let w3 := (rustLines v).foldl blockLineStep w2
  { w3 with level := w3.level - 1 }

/-- `run_scalar` from `src/writer/write_stack.rs`.  Writes to the string sink
cannot fail, so the function returns the updated writer directly. -/
def run_scalar (w : YamlWriter) (v : ScalarValue) : YamlWriter :=
  match v with
  | ScalarValue.String s =>
    if w.multiline_strings && s.data.contains '\n' && is_valid_literal_block_scalar s then
      write_literal_block w s
    else if need_quotes s then
      w.write (escape_str s)
    else
      w.write s
  | ScalarValue.Boolean b => w.write (if b then "true" else "false")
  | ScalarValue.Integer i => w.write (toString i)
  | ScalarValue.Real s => w.write s
  | ScalarValue.Null => w.write "~"
  | ScalarValue.BadValue => w.write "~"

/-- The three events `run_node` and `run_val` can receive.  The source marks every
other event `unreachable!()` and each call site has just matched one of these three,
so the restriction is made explicit in the type. -/
inductive NodeEvent where
  | seqStart
  | mapStart
  | scalar (v : ScalarValue)
deriving DecidableEq

/-- The node-event view of a `WriteEvent` (the `SequenceStart | MappingStart |
Scalar(_)` match arms of the frame `run` methods). -/
def nodeEventOf : WriteEvent → Option NodeEvent
  | WriteEvent.SequenceStart => some NodeEvent.seqStart
  | WriteEvent.MappingStart => some NodeEvent.mapStart
  | WriteEvent.Scalar v => some (NodeEvent.scalar v)
  | _ => none

/-- `run_node` from `src/writer/write_stack.rs`. -/
def run_node (w : YamlWriter) (e : NodeEvent) : YamlWriter :=
  match e with
  | NodeEvent.seqStart => w.push (StackFrame.Sequence true)
  | NodeEvent.mapStart => w.push (StackFrame.Mapping true)
  | NodeEvent.scalar v => run_scalar w v

/-- `run_val` from `src/writer/write_stack.rs`. -/
def run_val (w : YamlWriter) (e : NodeEvent) (inl : Bool) : YamlWriter :=
  match e with
  | NodeEvent.seqStart => w.push (StackFrame.ValSequence inl)
  | NodeEvent.mapStart => w.push (StackFrame.ValMapping inl)
  | NodeEvent.scalar v => run_scalar (w.write " ") v

/-- `SequenceFrame::run` from `src/writer/write_stack.rs`. -/
def runSequence (first : Bool) (w : YamlWriter) (e : WriteEvent) :
    YamlWriter × Option WriteError :=
  match nodeEventOf e with
  | some ne =>
    let w := if first then { w with level := w.level + 1 }
             else (w.writeln).write_indent
    let w := w.write "-"
    let w := w.push (StackFrame.Sequence false)
    (run_val w ne true, none)
  | none =>
    match e with
    | WriteEvent.SequenceEnd =>
      if first then (w.write "[]", none)
      else ({ w with level := w.level - 1 }, none)
    | _ => (w, some (stErr WriteStateErrorType.Sequence e))

/-- `MappingFrame::run` from `src/writer/write_stack.rs`. -/
def runMapping (first : Bool) (w : YamlWriter) (e : WriteEvent) :
    YamlWriter × Option WriteError :=
  match nodeEventOf e with
  | some ne =>
    let w := if first then { w with level := w.level + 1 }
             else (w.writeln).write_indent
    let ck := match ne with
      | NodeEvent.seqStart => true
      | NodeEvent.mapStart => true
      | NodeEvent.scalar _ => false
    let w := w.push (StackFrame.MappingItemValue ck)
    if ck then (run_val (w.write "?") ne true, none)
    else (run_node w ne, none)
  | none =>
    match e with
    | WriteEvent.MappingEnd =>
      if first then (w.write "{}", none)
      else ({ w with level := w.level - 1 }, none)
    | _ => (w, some (stErr WriteStateErrorType.Mapping e))

/-- `MappingItemValueFrame::run` from `src/writer/write_stack.rs`. -/
def runMappingItemValue (complex_key : Bool) (w : YamlWriter) (e : WriteEvent) :
    YamlWriter × Option WriteError :=
  match nodeEventOf e with
  | some ne =>
    let w := if complex_key then (w.writeln).write_indent else w
    let w := w.write ":"
    let w := w.push (StackFrame.Mapping false)
    (run_val w ne complex_key, none)
  | none => (w, some (stErr WriteStateErrorType.MappingEntryValue e))

/-- The separator placement shared by `ValSequenceFrame::run` and
`ValMappingFrame::run`: when the collection starts inline (inline hint with
compact mode, or an empty collection) a single space; otherwise a newline and
the indentation of one extra level, the level being restored immediately. -/
def valSeparator (w : YamlWriter) (cond : Bool) : YamlWriter :=
  if cond then w.write " "
  else
    let w1 := w.writeln
    let w2 : YamlWriter := { w1 with level := w1.level + 1 }
    let w3 := w2.write_indent
    { w3 with level := w3.level - 1 }

/-- `ValSequenceFrame::run` from `src/writer/write_stack.rs`. -/
def runValSequence (inl : Bool) (w : YamlWriter) (e : WriteEvent) :
    YamlWriter × Option WriteError :=
  let empt : Option Bool :=
    match e with
    | WriteEvent.SequenceStart => some false
    | WriteEvent.MappingStart => some false
    | WriteEvent.Scalar _ => some false
    | WriteEvent.SequenceEnd => some true
    | _ => none
  match empt with
  | none => (w, some (stErr WriteStateErrorType.Sequence e))
  | some is_empty =>
    runSequence true (valSeparator w ((inl && w.compact) || is_empty)) e

/-- `ValMappingFrame::run` from `src/writer/write_stack.rs`. -/
def runValMapping (inl : Bool) (w : YamlWriter) (e : WriteEvent) :
    YamlWriter × Option WriteError :=
  let empt : Option Bool :=
    match e with
    | WriteEvent.SequenceStart => some false
    | WriteEvent.MappingStart => some false
    | WriteEvent.Scalar _ => some false
    | WriteEvent.MappingEnd => some true
    | _ => none
  match empt with
  | none => (w, some (stErr WriteStateErrorType.Mapping e))
  | some is_empty =>
    runMapping true (valSeparator w ((inl && w.compact) || is_empty)) e

/-- `StackFrame::run` from `src/writer/write_stack.rs`: dispatch to the popped
frame's `run` method. -/
def StackFrame.run (f : StackFrame) (w : YamlWriter) (e : WriteEvent) :
    YamlWriter × Option WriteError :=
  match f with
  | StackFrame.Start =>
    match e with
    | WriteEvent.StreamStart => (w.push (StackFrame.Docs true), none)
    | _ => (w, some (stErr WriteStateErrorType.Start e))
  | StackFrame.End => (w, some (stErr WriteStateErrorType.End e))
  | StackFrame.Docs first =>
    match e with
    | WriteEvent.DocumentStart =>
      let w := if !first then w.writeln else w
      let w := if !first || !w.omit_first_doc_separator then (w.write "---").writeln else w
      ((w.push (StackFrame.Docs false)).push StackFrame.Doc, none)
    | WriteEvent.StreamEnd => (w.push StackFrame.End, none)
    | _ => (w, some (stErr WriteStateErrorType.DocumentList e))
  | StackFrame.Doc =>
    match nodeEventOf e with
    | some ne => (run_node (w.push StackFrame.DocEnd) ne, none)
    | none =>
      match e with
      | WriteEvent.DocumentEnd => (w, none)
      | _ => (w, some (stErr WriteStateErrorType.Document e))
  | StackFrame.DocEnd =>
    match e with
    | WriteEvent.DocumentEnd => (w, none)
    | _ => (w, some (stErr WriteStateErrorType.DocumentEnd e))
  | StackFrame.Sequence first => runSequence first w e
  | StackFrame.Mapping first => runMapping first w e
  | StackFrame.MappingItemValue ck => runMappingItemValue ck w e
  | StackFrame.ValSequence inl => runValSequence inl w e
  | StackFrame.ValMapping inl => runValMapping inl w e

/-- `YamlWriter::event` from `src/writer.rs`: pop the top frame (an empty stack is
the permanent "existing error" state), run it, and clear the whole stack when the
run reports an error. -/
def YamlWriter.event (w : YamlWriter) (e : WriteEvent) : YamlWriter × Option WriteError :=
  match w.stack with
  | [] => (w, some (stErr WriteStateErrorType.ExistingError e))
  | f :: rest =>
    let r := StackFrame.run f { w with stack := rest } e
    match r.2 with
    | some err => ({ r.1 with stack := [] }, some err)
    | none => r

/-- Feed a list of events to the writer, stopping at the first error (as a caller
checking each `event` result would). -/
def runEvents (w : YamlWriter) : List WriteEvent → YamlWriter × Option WriteError
  | [] => (w, none)
  | e :: rest =>
    let r := w.event e
    match r.2 with
    | some err => (r.1, some err)
    | none => runEvents r.1 rest

/-- `w2` differs from `w` at most in its output: the sink-writing operations of the
writer touch no configuration field, no indentation level, and no stack. -/
def writesOnly (w w2 : YamlWriter) : Prop :=
  w2.ident_size = w.ident_size ∧ w2.compact = w.compact ∧
  w2.multiline_strings = w.multiline_strings ∧
  w2.omit_first_doc_separator = w.omit_first_doc_separator ∧
  w2.level = w.level ∧ w2.stack = w.stack

/-- How many of the indentation increments recorded in `level` a frame on the
stack accounts for: `Sequence`/`Mapping` frames past their first item, and a
pending `MappingItemValue`, each carry one. -/
def frameOpens : StackFrame → Nat
  | StackFrame.Start => 0
  | StackFrame.End => 0
  | StackFrame.Docs _ => 0
  | StackFrame.Doc => 0
  | StackFrame.DocEnd => 0
  | StackFrame.Sequence first => if first then 0 else 1
  | StackFrame.Mapping first => if first then 0 else 1
  | StackFrame.MappingItemValue _ => 1
  | StackFrame.ValSequence _ => 0
  | StackFrame.ValMapping _ => 0

/-- Total indentation increments accounted for by a stack. -/
def countOpen (l : List StackFrame) : Nat := (l.map frameOpens).sum

/-- The indentation level always equals the number of indentation increments
recorded by the frames on the stack, minus one. -/
def levelConsistent (w : YamlWriter) : Prop :=
  w.level = (countOpen w.stack : Int) - 1

instance (w : YamlWriter) : Decidable (levelConsistent w) := by
  unfold levelConsistent; infer_instance

/-- The quoting condition in the words of the specification: empty; leading or
trailing space; a reserved leading character; a forbidden character or a control
character in the listed ranges anywhere; one of the reserved boolean/null
literals; a leading `.`; a leading `0x`; or text parsing as a signed 64-bit
integer or as a float. -/
def need_quotes_spec (s : String) : Prop :=
  s = "" ∨
  strStartsWith s " " = true ∨ strEndsWith s " " = true ∨
  (∃ c, s.data.head? = some c ∧
    c ∈ ['&', '*', '?', '|', '-', '<', '>', '=', '!', '%', '@']) ∨
  (∃ c ∈ s.data,
    c ∈ [':', '{', '}', '[', ']', ',', '#', '`', '\"', '\'', '\\'] ∨
    c.toNat ≤ 0x06 ∨ c = '\t' ∨ c = '\n' ∨ c = '\r' ∨
    (0x0e ≤ c.toNat ∧ c.toNat ≤ 0x1a) ∨ (0x1c ≤ c.toNat ∧ c.toNat ≤ 0x1f)) ∨
  s ∈ ["yes", "Yes", "YES", "no", "No", "NO", "True", "TRUE", "true", "False",
       "FALSE", "false", "on", "On", "ON", "off", "Off", "OFF",
       "null", "Null", "NULL", "~"] ∨
  strStartsWith s "." = true ∨ strStartsWith s "0x" = true ∨
  (parse_i64_radix 10 s).isSome = true ∨ is_valid_f64 s = true


/-! ### Helper lemmas about the writer operations -/

theorem writesOnly_refl (w : YamlWriter) : writesOnly w w :=
  ⟨rfl, rfl, rfl, rfl, rfl, rfl⟩

theorem writesOnly_trans {a b c : YamlWriter} (h1 : writesOnly a b)
    (h2 : writesOnly b c) : writesOnly a c := by
  obtain ⟨p1, p2, p3, p4, p5, p6⟩ := h1
  obtain ⟨q1, q2, q3, q4, q5, q6⟩ := h2
  exact ⟨q1.trans p1, q2.trans p2, q3.trans p3, q4.trans p4, q5.trans p5, q6.trans p6⟩

theorem writesOnly_write (w : YamlWriter) (s : String) : writesOnly w (w.write s) :=
  ⟨rfl, rfl, rfl, rfl, rfl, rfl⟩

theorem writesOnly_writeln (w : YamlWriter) : writesOnly w w.writeln :=
  writesOnly_write w "\n"

theorem writesOnly_write_indent (w : YamlWriter) : writesOnly w w.write_indent := by
  unfold YamlWriter.write_indent
  split
  · exact writesOnly_refl w
  · exact writesOnly_write w _

theorem write_out (w : YamlWriter) (s : String) : (w.write s).out = w.out ++ s := rfl

theorem write_indent_out (w : YamlWriter) :
    w.write_indent.out = w.out ++ indentStr w.level w.ident_size := by
  unfold YamlWriter.write_indent indentStr
  split
  · simp [*]
  · simp [write_out, *]

theorem writesOnly_blockLineStep (w : YamlWriter) (l : String) :
    writesOnly w (blockLineStep w l) :=
  writesOnly_trans (writesOnly_trans (writesOnly_writeln w)
    (writesOnly_write_indent _)) (writesOnly_write _ _)

theorem blockLineStep_out (w : YamlWriter) (l : String) :
    (blockLineStep w l).out = w.out ++ ("\n" ++ indentStr w.level w.ident_size ++ l) := by
  have h1 := writesOnly_writeln w
  unfold blockLineStep
  rw [write_out, write_indent_out, h1.2.2.2.2.1, h1.1]
  simp [YamlWriter.writeln, write_out, String.append_assoc]

theorem block_fold (ls : List String) :
    ∀ w : YamlWriter,
      writesOnly w (ls.foldl blockLineStep w) ∧
      (ls.foldl blockLineStep w).out =
        w.out ++ String.join (ls.map fun l => "\n" ++ indentStr w.level w.ident_size ++ l) := by
  induction ls with
  | nil => intro w; exact ⟨writesOnly_refl w, by simp [String.join]⟩
  | cons l rest ih =>
    intro w
    have hstep := writesOnly_blockLineStep w l
    obtain ⟨ihW, ihOut⟩ := ih (blockLineStep w l)
    refine ⟨writesOnly_trans hstep ihW, ?_⟩
    rw [List.foldl_cons, ihOut, blockLineStep_out, hstep.2.2.2.2.1, hstep.1]
    apply String.ext
    simp [String.append_assoc]

theorem write_literal_block_eq (w : YamlWriter) (v : String) :
    write_literal_block w v =
      (let w1 := if strEndsWith v "\n" then w.write "|" else w.write "|-"
       let w2 : YamlWriter := { w1 with level := w1.level + 1 }
       let w3 := (rustLines v).foldl blockLineStep w2
       { w3 with level := w3.level - 1 }) := rfl

theorem write_literal_block_shape (w : YamlWriter) (v : String) :
    writesOnly w (write_literal_block w v) := by
  have h1 : writesOnly w (if strEndsWith v "\n" then w.write "|" else w.write "|-") := by
    split <;> exact writesOnly_write w _
  set w1 := if strEndsWith v "\n" then w.write "|" else w.write "|-" with hw1
  have h2 := (block_fold (rustLines v) { w1 with level := w1.level + 1 }).1
  set w3 := (rustLines v).foldl blockLineStep
    ({ w1 with level := w1.level + 1 } : YamlWriter) with hw3
  have hx : w3.level = w1.level + 1 := h2.2.2.2.2.1
  have hw : w1.level = w.level := h1.2.2.2.2.1
  show writesOnly w { w3 with level := w3.level - 1 }
  exact ⟨h2.1.trans h1.1, h2.2.1.trans h1.2.1, h2.2.2.1.trans h1.2.2.1,
    h2.2.2.2.1.trans h1.2.2.2.1, by show w3.level - 1 = w.level; omega,
    h2.2.2.2.2.2.trans h1.2.2.2.2.2⟩

/-- The full output of `write_literal_block`: the `|` or `|-` header, then each
line preceded by a newline and one extra level of indentation. -/
theorem write_literal_block_out (w : YamlWriter) (v : String) :
    (write_literal_block w v).out =
      w.out ++ (if strEndsWith v "\n" then "|" else "|-")
        ++ String.join ((rustLines v).map fun l =>
            "\n" ++ indentStr (w.level + 1) w.ident_size ++ l) := by
  have h1 : writesOnly w (if strEndsWith v "\n" then w.write "|" else w.write "|-") := by
    split <;> exact writesOnly_write w _
  set w1 := if strEndsWith v "\n" then w.write "|" else w.write "|-" with hw1
  have h1out : w1.out = w.out ++ (if strEndsWith v "\n" then "|" else "|-") := by
    rw [hw1]; split <;> rfl
  have h2 := (block_fold (rustLines v) { w1 with level := w1.level + 1 }).2
  show ({ (rustLines v).foldl blockLineStep
      ({ w1 with level := w1.level + 1 } : YamlWriter) with
        level := ((rustLines v).foldl blockLineStep
          ({ w1 with level := w1.level + 1 } : YamlWriter)).level - 1 } : YamlWriter).out = _
  show ((rustLines v).foldl blockLineStep
      ({ w1 with level := w1.level + 1 } : YamlWriter)).out = _
  rw [h2]
  have : ({ w1 with level := w1.level + 1 } : YamlWriter).out = w1.out := rfl
  rw [this, h1out, h1.2.2.2.2.1, h1.1, String.append_assoc]

/-- Rendering a scalar writes output but leaves the level, the stack and the
configuration untouched (the temporary level bump of a literal block nets to
zero). -/
theorem run_scalar_shape (w : YamlWriter) (v : ScalarValue) :
    writesOnly w (run_scalar w v) := by
  unfold run_scalar
  match v with
  | ScalarValue.String s =>
    simp only
    split
    · exact write_literal_block_shape w s
    · split <;> exact writesOnly_write w _
  | ScalarValue.Boolean b => exact writesOnly_write w _
  | ScalarValue.Integer i => exact writesOnly_write w _
  | ScalarValue.Real s => exact writesOnly_write w _
  | ScalarValue.Null => exact writesOnly_write w _
  | ScalarValue.BadValue => exact writesOnly_write w _

/-- A frame `run` that reports an error leaves the writer untouched: every
illegal-event branch in `src/writer/write_stack.rs` returns before any write,
level change, or push. -/
theorem run_err_unchanged (f : StackFrame) (w : YamlWriter) (e : WriteEvent) :
    (StackFrame.run f w e).2.isSome → StackFrame.run f w e = (w, (StackFrame.run f w e).2) := by
  intro h
  cases f <;> cases e <;>
    first
      | rfl
      | (exfalso; revert h;
         simp [StackFrame.run, runSequence, runMapping, runMappingItemValue,
           runValSequence, runValMapping, nodeEventOf];
         done)
      | (exfalso; revert h;
         simp only [StackFrame.run, runSequence, runMapping, runMappingItemValue,
           runValSequence, runValMapping, nodeEventOf];
         split <;> simp)

/-- Every frame rejects the `Nothing` event with a state error, leaving the
writer untouched. -/
theorem run_nothing (f : StackFrame) (w : YamlWriter) :
    ∃ t, StackFrame.run f w WriteEvent.Nothing = (w, some (stErr t WriteEvent.Nothing)) := by
  cases f <;> exact ⟨_, rfl⟩

@[simp] theorem stack_write (w : YamlWriter) (s : String) :
    (YamlWriter.write w s).stack = w.stack := rfl

@[simp] theorem stack_writeln (w : YamlWriter) :
    (YamlWriter.writeln w).stack = w.stack := rfl

@[simp] theorem stack_write_indent (w : YamlWriter) :
    (YamlWriter.write_indent w).stack = w.stack :=
  (writesOnly_write_indent w).2.2.2.2.2

@[simp] theorem stack_push (w : YamlWriter) (f : StackFrame) :
    (YamlWriter.push w f).stack = f :: w.stack := rfl

@[simp] theorem level_write (w : YamlWriter) (s : String) :
    (YamlWriter.write w s).level = w.level := rfl

@[simp] theorem level_writeln (w : YamlWriter) :
    (YamlWriter.writeln w).level = w.level := rfl

@[simp] theorem level_write_indent (w : YamlWriter) :
    (YamlWriter.write_indent w).level = w.level :=
  (writesOnly_write_indent w).2.2.2.2.1

@[simp] theorem level_push (w : YamlWriter) (f : StackFrame) :
    (YamlWriter.push w f).level = w.level := rfl

@[simp] theorem stack_run_scalar (w : YamlWriter) (v : ScalarValue) :
    (run_scalar w v).stack = w.stack :=
  (run_scalar_shape w v).2.2.2.2.2

@[simp] theorem level_run_scalar (w : YamlWriter) (v : ScalarValue) :
    (run_scalar w v).level = w.level :=
  (run_scalar_shape w v).2.2.2.2.1

@[simp] theorem countOpen_nil : countOpen [] = 0 := rfl

@[simp] theorem countOpen_cons (f : StackFrame) (l : List StackFrame) :
    countOpen (f :: l) = frameOpens f + countOpen l := by
  simp [countOpen]

theorem countOpen_append (a b : List StackFrame) :
    countOpen (a ++ b) = countOpen a + countOpen b := by
  simp [countOpen]

theorem run_val_shape (w : YamlWriter) (e : NodeEvent) (inl : Bool) :
    ∃ pushed, (run_val w e inl).stack = pushed ++ w.stack ∧ pushed.length ≤ 1 ∧
      countOpen pushed = 0 ∧ (run_val w e inl).level = w.level := by
  cases e with
  | seqStart =>
    exact ⟨[StackFrame.ValSequence inl], rfl, by simp, by simp [frameOpens], rfl⟩
  | mapStart =>
    exact ⟨[StackFrame.ValMapping inl], rfl, by simp, by simp [frameOpens], rfl⟩
  | scalar v =>
    exact ⟨[], by simp [run_val], by simp, rfl, by simp [run_val]⟩

theorem run_node_shape (w : YamlWriter) (e : NodeEvent) :
    ∃ pushed, (run_node w e).stack = pushed ++ w.stack ∧ pushed.length ≤ 1 ∧
      countOpen pushed = 0 ∧ (run_node w e).level = w.level := by
  cases e with
  | seqStart =>
    exact ⟨[StackFrame.Sequence true], rfl, by simp, by simp [frameOpens], rfl⟩
  | mapStart =>
    exact ⟨[StackFrame.Mapping true], rfl, by simp, by simp [frameOpens], rfl⟩
  | scalar v =>
    exact ⟨[], by simp [run_node], by simp, rfl, by simp [run_node]⟩

theorem valSeparator_stack (w : YamlWriter) (c : Bool) :
    (valSeparator w c).stack = w.stack := by
  unfold valSeparator; split <;> simp

theorem valSeparator_level (w : YamlWriter) (c : Bool) :
    (valSeparator w c).level = w.level := by
  unfold valSeparator; split
  · simp
  · show (({ w.writeln with level := w.writeln.level + 1 } : YamlWriter).write_indent).level - 1
        = w.level
    rw [level_write_indent]
    simp

theorem runSequence_shape (first : Bool) (w : YamlWriter) (e : WriteEvent)
    (h : (runSequence first w e).2 = none) :
    ∃ pushed, (runSequence first w e).1.stack = pushed ++ w.stack ∧
      pushed.length ≤ 2 ∧
      (runSequence first w e).1.level =
        w.level + (countOpen pushed : Int)
          - (frameOpens (StackFrame.Sequence first) : Int) := by
  cases e with
  | Nothing => simp [runSequence, nodeEventOf] at h
  | StreamStart => simp [runSequence, nodeEventOf] at h
  | StreamEnd => simp [runSequence, nodeEventOf] at h
  | DocumentStart => simp [runSequence, nodeEventOf] at h
  | DocumentEnd => simp [runSequence, nodeEventOf] at h
  | MappingEnd => simp [runSequence, nodeEventOf] at h
  | SequenceStart =>
    refine ⟨[StackFrame.ValSequence true, StackFrame.Sequence false], ?_, by simp, ?_⟩
    · cases first <;> simp [runSequence, nodeEventOf, run_val]
    · cases first <;> simp [runSequence, nodeEventOf, run_val, frameOpens]
  | MappingStart =>
    refine ⟨[StackFrame.ValMapping true, StackFrame.Sequence false], ?_, by simp, ?_⟩
    · cases first <;> simp [runSequence, nodeEventOf, run_val]
    · cases first <;> simp [runSequence, nodeEventOf, run_val, frameOpens]
  | Scalar v =>
    refine ⟨[StackFrame.Sequence false], ?_, by simp, ?_⟩
    · cases first <;> simp [runSequence, nodeEventOf, run_val]
    · cases first <;> simp [runSequence, nodeEventOf, run_val, frameOpens]
  | SequenceEnd =>
    refine ⟨[], ?_, by simp, ?_⟩
    · cases first <;> simp [runSequence, nodeEventOf]
    · cases first <;> simp [runSequence, nodeEventOf, frameOpens]

theorem runMapping_shape (first : Bool) (w : YamlWriter) (e : WriteEvent)
    (h : (runMapping first w e).2 = none) :
    ∃ pushed, (runMapping first w e).1.stack = pushed ++ w.stack ∧
      pushed.length ≤ 2 ∧
      (runMapping first w e).1.level =
        w.level + (countOpen pushed : Int)
          - (frameOpens (StackFrame.Mapping first) : Int) := by
  cases e with
  | Nothing => simp [runMapping, nodeEventOf] at h
  | StreamStart => simp [runMapping, nodeEventOf] at h
  | StreamEnd => simp [runMapping, nodeEventOf] at h
  | DocumentStart => simp [runMapping, nodeEventOf] at h
  | DocumentEnd => simp [runMapping, nodeEventOf] at h
  | SequenceEnd => simp [runMapping, nodeEventOf] at h
  | SequenceStart =>
    refine ⟨[StackFrame.ValSequence true, StackFrame.MappingItemValue true], ?_, by simp, ?_⟩
    · cases first <;> simp [runMapping, nodeEventOf, run_val]
    · cases first <;> simp [runMapping, nodeEventOf, run_val, frameOpens]
  | MappingStart =>
    refine ⟨[StackFrame.ValMapping true, StackFrame.MappingItemValue true], ?_, by simp, ?_⟩
    · cases first <;> simp [runMapping, nodeEventOf, run_val]
    · cases first <;> simp [runMapping, nodeEventOf, run_val, frameOpens]
  | Scalar v =>
    refine ⟨[StackFrame.MappingItemValue false], ?_, by simp, ?_⟩
    · cases first <;> simp [runMapping, nodeEventOf, run_node]
    · cases first <;> simp [runMapping, nodeEventOf, run_node, frameOpens]
  | MappingEnd =>
    refine ⟨[], ?_, by simp, ?_⟩
    · cases first <;> simp [runMapping, nodeEventOf]
    · cases first <;> simp [runMapping, nodeEventOf, frameOpens]

theorem runMappingItemValue_shape (ck : Bool) (w : YamlWriter) (e : WriteEvent)
    (h : (runMappingItemValue ck w e).2 = none) :
    ∃ pushed, (runMappingItemValue ck w e).1.stack = pushed ++ w.stack ∧
      pushed.length ≤ 2 ∧
      (runMappingItemValue ck w e).1.level =
        w.level + (countOpen pushed : Int) - 1 := by
  cases e with
  | Nothing => simp [runMappingItemValue, nodeEventOf] at h
  | StreamStart => simp [runMappingItemValue, nodeEventOf] at h
  | StreamEnd => simp [runMappingItemValue, nodeEventOf] at h
  | DocumentStart => simp [runMappingItemValue, nodeEventOf] at h
  | DocumentEnd => simp [runMappingItemValue, nodeEventOf] at h
  | SequenceEnd => simp [runMappingItemValue, nodeEventOf] at h
  | MappingEnd => simp [runMappingItemValue, nodeEventOf] at h
  | SequenceStart =>
    refine ⟨[StackFrame.ValSequence ck, StackFrame.Mapping false], ?_, by simp, ?_⟩
    · cases ck <;> simp [runMappingItemValue, nodeEventOf, run_val]
    · cases ck <;> simp [runMappingItemValue, nodeEventOf, run_val, frameOpens]
  | MappingStart =>
    refine ⟨[StackFrame.ValMapping ck, StackFrame.Mapping false], ?_, by simp, ?_⟩
    · cases ck <;> simp [runMappingItemValue, nodeEventOf, run_val]
    · cases ck <;> simp [runMappingItemValue, nodeEventOf, run_val, frameOpens]
  | Scalar v =>
    refine ⟨[StackFrame.Mapping false], ?_, by simp, ?_⟩
    · cases ck <;> simp [runMappingItemValue, nodeEventOf, run_val]
    · cases ck <;> simp [runMappingItemValue, nodeEventOf, run_val, frameOpens]

theorem runValSequence_shape (inl : Bool) (w : YamlWriter) (e : WriteEvent)
    (h : (runValSequence inl w e).2 = none) :
    ∃ pushed, (runValSequence inl w e).1.stack = pushed ++ w.stack ∧
      pushed.length ≤ 2 ∧
      (runValSequence inl w e).1.level = w.level + (countOpen pushed : Int) := by
  cases e with
  | Nothing => simp [runValSequence] at h
  | StreamStart => simp [runValSequence] at h
  | StreamEnd => simp [runValSequence] at h
  | DocumentStart => simp [runValSequence] at h
  | DocumentEnd => simp [runValSequence] at h
  | MappingEnd => simp [runValSequence] at h
  | SequenceStart =>
    obtain ⟨p, hst, hlen, hlev⟩ := runSequence_shape true
      (valSeparator w ((inl && w.compact) || false)) WriteEvent.SequenceStart h
    refine ⟨p, ?_, hlen, ?_⟩
    · show (runSequence true (valSeparator w ((inl && w.compact) || false))
          WriteEvent.SequenceStart).1.stack = p ++ w.stack
      rw [hst, valSeparator_stack]
    · show (runSequence true (valSeparator w ((inl && w.compact) || false))
          WriteEvent.SequenceStart).1.level = w.level + (countOpen p : Int)
      rw [hlev, valSeparator_level]
      simp [frameOpens]
  | MappingStart =>
    obtain ⟨p, hst, hlen, hlev⟩ := runSequence_shape true
      (valSeparator w ((inl && w.compact) || false)) WriteEvent.MappingStart h
    refine ⟨p, ?_, hlen, ?_⟩
    · show (runSequence true (valSeparator w ((inl && w.compact) || false))
          WriteEvent.MappingStart).1.stack = p ++ w.stack
      rw [hst, valSeparator_stack]
    · show (runSequence true (valSeparator w ((inl && w.compact) || false))
          WriteEvent.MappingStart).1.level = w.level + (countOpen p : Int)
      rw [hlev, valSeparator_level]
      simp [frameOpens]
  | Scalar v =>
    obtain ⟨p, hst, hlen, hlev⟩ := runSequence_shape true
      (valSeparator w ((inl && w.compact) || false)) (WriteEvent.Scalar v) h
    refine ⟨p, ?_, hlen, ?_⟩
    · show (runSequence true (valSeparator w ((inl && w.compact) || false))
          (WriteEvent.Scalar v)).1.stack = p ++ w.stack
      rw [hst, valSeparator_stack]
    · show (runSequence true (valSeparator w ((inl && w.compact) || false))
          (WriteEvent.Scalar v)).1.level = w.level + (countOpen p : Int)
      rw [hlev, valSeparator_level]
      simp [frameOpens]
  | SequenceEnd =>
    obtain ⟨p, hst, hlen, hlev⟩ := runSequence_shape true
      (valSeparator w ((inl && w.compact) || true)) WriteEvent.SequenceEnd h
    refine ⟨p, ?_, hlen, ?_⟩
    · show (runSequence true (valSeparator w ((inl && w.compact) || true))
          WriteEvent.SequenceEnd).1.stack = p ++ w.stack
      rw [hst, valSeparator_stack]
    · show (runSequence true (valSeparator w ((inl && w.compact) || true))
          WriteEvent.SequenceEnd).1.level = w.level + (countOpen p : Int)
      rw [hlev, valSeparator_level]
      simp [frameOpens]

theorem runValMapping_shape (inl : Bool) (w : YamlWriter) (e : WriteEvent)
    (h : (runValMapping inl w e).2 = none) :
    ∃ pushed, (runValMapping inl w e).1.stack = pushed ++ w.stack ∧
      pushed.length ≤ 2 ∧
      (runValMapping inl w e).1.level = w.level + (countOpen pushed : Int) := by
  cases e with
  | Nothing => simp [runValMapping] at h
  | StreamStart => simp [runValMapping] at h
  | StreamEnd => simp [runValMapping] at h
  | DocumentStart => simp [runValMapping] at h
  | DocumentEnd => simp [runValMapping] at h
  | SequenceEnd => simp [runValMapping] at h
  | SequenceStart =>
    obtain ⟨p, hst, hlen, hlev⟩ := runMapping_shape true
      (valSeparator w ((inl && w.compact) || false)) WriteEvent.SequenceStart h
    refine ⟨p, ?_, hlen, ?_⟩
    · show (runMapping true (valSeparator w ((inl && w.compact) || false))
          WriteEvent.SequenceStart).1.stack = p ++ w.stack
      rw [hst, valSeparator_stack]
    · show (runMapping true (valSeparator w ((inl && w.compact) || false))
          WriteEvent.SequenceStart).1.level = w.level + (countOpen p : Int)
      rw [hlev, valSeparator_level]
      simp [frameOpens]
  | MappingStart =>
    obtain ⟨p, hst, hlen, hlev⟩ := runMapping_shape true
      (valSeparator w ((inl && w.compact) || false)) WriteEvent.MappingStart h
    refine ⟨p, ?_, hlen, ?_⟩
    · show (runMapping true (valSeparator w ((inl && w.compact) || false))
          WriteEvent.MappingStart).1.stack = p ++ w.stack
      rw [hst, valSeparator_stack]
    · show (runMapping true (valSeparator w ((inl && w.compact) || false))
          WriteEvent.MappingStart).1.level = w.level + (countOpen p : Int)
      rw [hlev, valSeparator_level]
      simp [frameOpens]
  | Scalar v =>
    obtain ⟨p, hst, hlen, hlev⟩ := runMapping_shape true
      (valSeparator w ((inl && w.compact) || false)) (WriteEvent.Scalar v) h
    refine ⟨p, ?_, hlen, ?_⟩
    · show (runMapping true (valSeparator w ((inl && w.compact) || false))
          (WriteEvent.Scalar v)).1.stack = p ++ w.stack
      rw [hst, valSeparator_stack]
    · show (runMapping true (valSeparator w ((inl && w.compact) || false))
          (WriteEvent.Scalar v)).1.level = w.level + (countOpen p : Int)
      rw [hlev, valSeparator_level]
      simp [frameOpens]
  | MappingEnd =>
    obtain ⟨p, hst, hlen, hlev⟩ := runMapping_shape true
      (valSeparator w ((inl && w.compact) || true)) WriteEvent.MappingEnd h
    refine ⟨p, ?_, hlen, ?_⟩
    · show (runMapping true (valSeparator w ((inl && w.compact) || true))
          WriteEvent.MappingEnd).1.stack = p ++ w.stack
      rw [hst, valSeparator_stack]
    · show (runMapping true (valSeparator w ((inl && w.compact) || true))
          WriteEvent.MappingEnd).1.level = w.level + (countOpen p : Int)
      rw [hlev, valSeparator_level]
      simp [frameOpens]

/-- Shape of one frame transition: on success the popped frame is replaced by at
most two pushed frames, and the indentation level moves by exactly the
difference of the indentation increments recorded by the pushed frames and by
the popped one. -/
theorem run_shape (f : StackFrame) (w : YamlWriter) (e : WriteEvent)
    (h : (StackFrame.run f w e).2 = none) :
    ∃ pushed, (StackFrame.run f w e).1.stack = pushed ++ w.stack ∧
      pushed.length ≤ 2 ∧
      (StackFrame.run f w e).1.level =
        w.level + (countOpen pushed : Int) - (frameOpens f : Int) := by
  cases f with
  | Start =>
    cases e <;>
      first
        | exact ⟨[StackFrame.Docs true], rfl, by simp,
            by simp [StackFrame.run, frameOpens]⟩
        | simp [StackFrame.run] at h
  | End => simp [StackFrame.run] at h
  | Docs first =>
    cases e with
    | DocumentStart =>
      refine ⟨[StackFrame.Doc, StackFrame.Docs false], ?_, by simp, ?_⟩
      · simp only [StackFrame.run]
        split <;> split <;> simp
      · simp only [StackFrame.run]
        split <;> split <;> simp [frameOpens]
    | StreamEnd =>
      exact ⟨[StackFrame.End], rfl, by simp, by simp [StackFrame.run, frameOpens]⟩
    | Nothing => simp [StackFrame.run] at h
    | StreamStart => simp [StackFrame.run] at h
    | DocumentEnd => simp [StackFrame.run] at h
    | SequenceStart => simp [StackFrame.run] at h
    | SequenceEnd => simp [StackFrame.run] at h
    | MappingStart => simp [StackFrame.run] at h
    | MappingEnd => simp [StackFrame.run] at h
    | Scalar v => simp [StackFrame.run] at h
  | Doc =>
    cases e with
    | SequenceStart =>
      exact ⟨[StackFrame.Sequence true, StackFrame.DocEnd], rfl, by simp,
        by simp [StackFrame.run, nodeEventOf, run_node, frameOpens]⟩
    | MappingStart =>
      exact ⟨[StackFrame.Mapping true, StackFrame.DocEnd], rfl, by simp,
        by simp [StackFrame.run, nodeEventOf, run_node, frameOpens]⟩
    | Scalar v =>
      refine ⟨[StackFrame.DocEnd], ?_, by simp, ?_⟩
      · simp [StackFrame.run, nodeEventOf, run_node]
      · simp [StackFrame.run, nodeEventOf, run_node, frameOpens]
    | DocumentEnd =>
      exact ⟨[], rfl, by simp, by simp [StackFrame.run, nodeEventOf, frameOpens]⟩
    | Nothing => simp [StackFrame.run, nodeEventOf] at h
    | StreamStart => simp [StackFrame.run, nodeEventOf] at h
    | StreamEnd => simp [StackFrame.run, nodeEventOf] at h
    | DocumentStart => simp [StackFrame.run, nodeEventOf] at h
    | SequenceEnd => simp [StackFrame.run, nodeEventOf] at h
    | MappingEnd => simp [StackFrame.run, nodeEventOf] at h
  | DocEnd =>
    cases e <;> exact ⟨[], rfl, by simp, by simp [StackFrame.run, frameOpens]⟩
  | Sequence first => exact runSequence_shape first w e h
  | Mapping first => exact runMapping_shape first w e h
  | MappingItemValue ck =>
    obtain ⟨p, h1, h2, h3⟩ := runMappingItemValue_shape ck w e h
    refine ⟨p, h1, h2, ?_⟩
    show (runMappingItemValue ck w e).1.level = _
    rw [h3]; simp [frameOpens]
  | ValSequence inl =>
    obtain ⟨p, h1, h2, h3⟩ := runValSequence_shape inl w e h
    refine ⟨p, h1, h2, ?_⟩
    show (runValSequence inl w e).1.level = _
    rw [h3]; simp [frameOpens]
  | ValMapping inl =>
    obtain ⟨p, h1, h2, h3⟩ := runValMapping_shape inl w e h
    refine ⟨p, h1, h2, ?_⟩
    show (runValMapping inl w e).1.level = _
    rw [h3]; simp [frameOpens]

theorem event_nil (w : YamlWriter) (hs : w.stack = []) (e : WriteEvent) :
    w.event e = (w, some (stErr WriteStateErrorType.ExistingError e)) := by
  unfold YamlWriter.event
  rw [hs]

theorem event_cons (w : YamlWriter) (f : StackFrame) (rest : List StackFrame)
    (hs : w.stack = f :: rest) (e : WriteEvent) :
    w.event e =
      match (StackFrame.run f { w with stack := rest } e).2 with
      | some err =>
        ({ (StackFrame.run f { w with stack := rest } e).1 with stack := [] }, some err)
      | none => StackFrame.run f { w with stack := rest } e := by
  unfold YamlWriter.event
  rw [hs]

/-! ### The claims -/

/-- C1: errors are permanent.  If `YamlWriter::event` returns an error, the frame
stack is cleared, and every subsequent `event` call on that writer returns the
"existing error" variant of the state failure with the writer unchanged — so no
later call succeeds or writes output. -/
theorem event_error_is_permanent (w : YamlWriter) (e : WriteEvent) (err : WriteError)
    (h : (w.event e).2 = some err) :
    (w.event e).1.stack = [] ∧
    ∀ e2, (w.event e).1.event e2 =
      ((w.event e).1, some (stErr WriteStateErrorType.ExistingError e2)) := by
  have hstack : (w.event e).1.stack = [] := by
    rcases hs : w.stack with _ | ⟨f, rest⟩
    · rw [event_nil w hs e]
      exact hs
    · cases hr : (StackFrame.run f { w with stack := rest } e).2 with
      | none =>
        exfalso
        have hev : w.event e = StackFrame.run f { w with stack := rest } e := by
          rw [event_cons w f rest hs e, hr]
        rw [hev, hr] at h
        exact Option.noConfusion h
      | some err2 =>
        have hev : w.event e =
            ({ (StackFrame.run f { w with stack := rest } e).1 with stack := [] },
              some err2) := by
          rw [event_cons w f rest hs e, hr]
        rw [hev]
  exact ⟨hstack, fun e2 => event_nil (w.event e).1 hstack e2⟩

/-- C1 witness: after `StreamStart`, submitting `MappingEnd` (illegal in the
document-list state) fails, clears the stack, and makes every further call fail
with the "existing error" state failure. -/
theorem event_error_is_permanent_witness :
    (((YamlWriter.new.event WriteEvent.StreamStart).1.event WriteEvent.MappingEnd).2 =
      some (stErr WriteStateErrorType.DocumentList WriteEvent.MappingEnd)) ∧
    ((YamlWriter.new.event WriteEvent.StreamStart).1.event WriteEvent.MappingEnd).1.stack
      = [] ∧
    ∀ e2,
      (((YamlWriter.new.event WriteEvent.StreamStart).1.event WriteEvent.MappingEnd).1.event
          e2) =
        (((YamlWriter.new.event WriteEvent.StreamStart).1.event WriteEvent.MappingEnd).1,
          some (stErr WriteStateErrorType.ExistingError e2)) :=
  ⟨by decide,
   (event_error_is_permanent (YamlWriter.new.event WriteEvent.StreamStart).1
      WriteEvent.MappingEnd
      (stErr WriteStateErrorType.DocumentList WriteEvent.MappingEnd) (by decide)).1,
   (event_error_is_permanent (YamlWriter.new.event WriteEvent.StreamStart).1
      WriteEvent.MappingEnd
      (stErr WriteStateErrorType.DocumentList WriteEvent.MappingEnd) (by decide)).2⟩

/-- C9: every `event` call pops exactly one frame (the model pops before running,
as the source does), and a successful transition pushes zero, one, or two
replacement frames — never more. -/
theorem event_pops_one_pushes_at_most_two (w : YamlWriter) (f : StackFrame)
    (rest : List StackFrame) (hs : w.stack = f :: rest) (e : WriteEvent)
    (hok : (w.event e).2 = none) :
    ∃ pushed, (w.event e).1.stack = pushed ++ rest ∧ pushed.length ≤ 2 := by
  rw [event_cons w f rest hs e] at hok ⊢
  cases hr : (StackFrame.run f { w with stack := rest } e).2 with
  | some err => rw [hr] at hok; simp at hok
  | none =>
    simp only [hr]
    obtain ⟨p, h1, h2, _⟩ := run_shape f { w with stack := rest } e hr
    exact ⟨p, h1, h2⟩

/-- C9 witness: from the initial state, `StreamStart` pops the `Start` frame and
pushes a single `Docs` frame. -/
theorem event_pops_one_pushes_at_most_two_witness :
    ∃ pushed,
      (YamlWriter.new.event WriteEvent.StreamStart).1.stack = pushed ++ [] ∧
      pushed.length ≤ 2 :=
  event_pops_one_pushes_at_most_two YamlWriter.new StackFrame.Start []
    (by decide) WriteEvent.StreamStart (by decide)

/-- C8: the writer starts at level `-1`; every successful transition keeps the
level consistent with the structural stack, so a matched `SequenceStart` …
`SequenceEnd` or `MappingStart` … `MappingEnd` subsequence restores the level
(the stack below it is restored, and the level is a function of the stack), and
once a complete stream has ended (only the terminal `End` frame remains) the
level is `-1` again; a complete concrete nested stream confirms it. -/
theorem indentation_matches_stack :
    levelConsistent YamlWriter.new ∧
    (∀ w e, levelConsistent w → (w.event e).2 = none →
      levelConsistent (w.event e).1) ∧
    (∀ w w', levelConsistent w → levelConsistent w' → w'.stack = w.stack →
      w'.level = w.level) ∧
    (∀ w, levelConsistent w → w.stack = [StackFrame.End] → w.level = -1) ∧
    ((runEvents YamlWriter.new
      [WriteEvent.StreamStart, WriteEvent.DocumentStart, WriteEvent.MappingStart,
       WriteEvent.Scalar (ScalarValue.String "k"), WriteEvent.SequenceStart,
       WriteEvent.Scalar (ScalarValue.String "x"), WriteEvent.SequenceEnd,
       WriteEvent.MappingEnd, WriteEvent.DocumentEnd, WriteEvent.StreamEnd]).1.level
      = -1) := by
  refine ⟨by decide, ?_, ?_, ?_, by decide⟩
  · intro w e hl hok
    rcases hs : w.stack with _ | ⟨f, rest⟩
    · rw [event_nil w hs e] at hok
      simp at hok
    · cases hr : (StackFrame.run f { w with stack := rest } e).2 with
      | some err =>
        exfalso
        have hev : w.event e =
            ({ (StackFrame.run f { w with stack := rest } e).1 with stack := [] },
              some err) := by
          rw [event_cons w f rest hs e, hr]
        rw [hev] at hok
        exact Option.noConfusion hok
      | none =>
        have hev : w.event e = StackFrame.run f { w with stack := rest } e := by
          rw [event_cons w f rest hs e, hr]
        obtain ⟨p, h1, h2, h3⟩ := run_shape f { w with stack := rest } e hr
        unfold levelConsistent at hl ⊢
        rw [hev, h1, h3]
        have hrest : ({ w with stack := rest } : YamlWriter).stack = rest := rfl
        have hlev : ({ w with stack := rest } : YamlWriter).level = w.level := rfl
        rw [hrest, hlev, countOpen_append]
        rw [hs, countOpen_cons] at hl
        push_cast
        push_cast at hl
        omega
  · intro w w' h h' hst
    unfold levelConsistent at h h'
    rw [h, h', hst]
  · intro w hl hs
    unfold levelConsistent at hl
    rw [hs] at hl
    simp [countOpen, frameOpens] at hl
    omega

/-- C8 witness: the step-preservation applied from the initial state on
`StreamStart`. -/
theorem indentation_matches_stack_witness :
    levelConsistent (YamlWriter.new.event WriteEvent.StreamStart).1 :=
  indentation_matches_stack.2.1 YamlWriter.new WriteEvent.StreamStart
    (by decide) (by decide)

/-- C10 counterexample: submitting `Nothing` to a fresh writer does not succeed
and does not leave the stack unchanged — it fails with a state error and clears
the stack, contradicting the claim that `Nothing` is a no-op returning
success. -/
theorem nothing_not_noop :
    (YamlWriter.new.event WriteEvent.Nothing).2 ≠ none ∧
    (YamlWriter.new.event WriteEvent.Nothing).1.stack ≠ YamlWriter.new.stack := by
  decide

/-- C10 amended: `Nothing` is never accepted.  In every state, submitting
`WriteEvent::Nothing` writes no output and changes no configuration (the
resulting writer is the original with only its stack cleared) and returns an
error, like any other illegal event. -/
theorem nothing_always_rejected (w : YamlWriter) :
    ∃ err, w.event WriteEvent.Nothing = ({ w with stack := [] }, some err) := by
  rcases hs : w.stack with _ | ⟨f, rest⟩
  · rw [event_nil w hs WriteEvent.Nothing]
    have hw : ({ w with stack := [] } : YamlWriter) = w := by
      cases w
      simp only at hs
      rw [hs]
    rw [hw]
    exact ⟨_, rfl⟩
  · rw [event_cons w f rest hs WriteEvent.Nothing]
    obtain ⟨t, ht⟩ := run_nothing f { w with stack := rest }
    rw [ht]
    exact ⟨stErr t WriteEvent.Nothing, rfl⟩

/-- C6: an empty sequence (`SequenceStart` immediately followed by
`SequenceEnd`) emits the inline marker `[]`, and an empty mapping emits `{}`,
with no change to the indentation level: as the direct closing of a
just-opened collection frame; as the closing of a collection in value position
(where the preceding space is the value separator); and in concrete complete
streams at every nesting position (top-level document value, sequence item,
mapping key, mapping value) under both compact settings. -/
theorem empty_collections_render_inline :
    (∀ w, runSequence true w WriteEvent.SequenceEnd = (w.write "[]", none)) ∧
    (∀ w, runMapping true w WriteEvent.MappingEnd = (w.write "{}", none)) ∧
    (∀ w inl, runValSequence inl w WriteEvent.SequenceEnd =
      ((w.write " ").write "[]", none)) ∧
    (∀ w inl, runValMapping inl w WriteEvent.MappingEnd =
      ((w.write " ").write "{}", none)) ∧
    ((runEvents YamlWriter.new
      [WriteEvent.StreamStart, WriteEvent.DocumentStart, WriteEvent.SequenceStart,
       WriteEvent.SequenceEnd, WriteEvent.DocumentEnd, WriteEvent.StreamEnd]).1.out
      = "[]") ∧
    ((runEvents YamlWriter.new
      [WriteEvent.StreamStart, WriteEvent.DocumentStart, WriteEvent.MappingStart,
       WriteEvent.MappingEnd, WriteEvent.DocumentEnd, WriteEvent.StreamEnd]).1.out
      = "{}") ∧
    ((runEvents YamlWriter.new
      [WriteEvent.StreamStart, WriteEvent.DocumentStart, WriteEvent.SequenceStart,
       WriteEvent.MappingStart, WriteEvent.MappingEnd, WriteEvent.SequenceStart,
       WriteEvent.SequenceEnd, WriteEvent.SequenceEnd, WriteEvent.DocumentEnd,
       WriteEvent.StreamEnd]).1.out = "- {}\n- []") ∧
    ((runEvents YamlWriter.new
      [WriteEvent.StreamStart, WriteEvent.DocumentStart, WriteEvent.MappingStart,
       WriteEvent.Scalar (ScalarValue.String "k"), WriteEvent.SequenceStart,
       WriteEvent.SequenceEnd, WriteEvent.MappingEnd, WriteEvent.DocumentEnd,
       WriteEvent.StreamEnd]).1.out = "k: []") ∧
    ((runEvents YamlWriter.new
      [WriteEvent.StreamStart, WriteEvent.DocumentStart, WriteEvent.MappingStart,
       WriteEvent.SequenceStart, WriteEvent.SequenceEnd,
       WriteEvent.Scalar (ScalarValue.String "v"), WriteEvent.MappingEnd,
       WriteEvent.DocumentEnd, WriteEvent.StreamEnd]).1.out = "? []\n: v") ∧
    ((runEvents { YamlWriter.new with compact := false }
      [WriteEvent.StreamStart, WriteEvent.DocumentStart, WriteEvent.MappingStart,
       WriteEvent.Scalar (ScalarValue.String "k"), WriteEvent.SequenceStart,
       WriteEvent.SequenceEnd, WriteEvent.MappingEnd, WriteEvent.DocumentEnd,
       WriteEvent.StreamEnd]).1.out = "k: []") ∧
    ((runEvents { YamlWriter.new with compact := false }
      [WriteEvent.StreamStart, WriteEvent.DocumentStart, WriteEvent.SequenceStart,
       WriteEvent.MappingStart, WriteEvent.MappingEnd, WriteEvent.SequenceStart,
       WriteEvent.SequenceEnd, WriteEvent.SequenceEnd, WriteEvent.DocumentEnd,
       WriteEvent.StreamEnd]).1.out = "- {}\n- []") := by
  refine ⟨?_, ?_, ?_, ?_, by decide, by decide, by decide, by decide, by decide,
    by decide, by decide⟩
  · intro w
    rfl
  · intro w
    rfl
  · intro w inl
    simp [runValSequence, runSequence, nodeEventOf, valSeparator]
  · intro w inl
    simp [runValMapping, runMapping, nodeEventOf, valSeparator]

theorem startsWithChar_eq_true (s : String) (p : Char → Bool) :
    startsWithChar s p = true ↔ ∃ c, s.data.head? = some c ∧ p c = true := by
  unfold startsWithChar
  cases s.data <;> simp

theorem data_nil_iff (s : String) : s.data = [] ↔ s = "" :=
  ⟨fun h => String.ext h, fun h => by rw [h]⟩

theorem need_quotes_char_iff (c : Char) :
    need_quotes_char c = true ↔
      (c ∈ [':', '{', '}', '[', ']', ',', '#', '`', '\"', '\'', '\\'] ∨
        c.toNat ≤ 0x06 ∨ c = '\t' ∨ c = '\n' ∨ c = '\r' ∨
        (0x0e ≤ c.toNat ∧ c.toNat ≤ 0x1a) ∨ (0x1c ≤ c.toNat ∧ c.toNat ≤ 0x1f)) := by
  unfold need_quotes_char
  simp only [Bool.or_eq_true, decide_eq_true_eq, Bool.and_eq_true, List.mem_cons,
    List.not_mem_nil, or_false, or_assoc]

theorem need_quotes_first_char_iff (c : Char) :
    need_quotes_first_char c = true ↔
      c ∈ ['&', '*', '?', '|', '-', '<', '>', '=', '!', '%', '@'] := by
  unfold need_quotes_first_char
  simp only [Bool.or_eq_true, decide_eq_true_eq, List.mem_cons,
    List.not_mem_nil, or_false, or_assoc]

/-- C2: `need_quotes` holds exactly under the specification's condition, and on
the concrete scalars the spec names: `"true"`, `"null"`, `"123"`, `"3.14"` and
strings with a leading or trailing space render double-quoted, while `"hello"`
and the single-letter strings `y`, `Y`, `n`, `N` render bare. -/
theorem need_quotes_characterization :
    (∀ s, need_quotes s = true ↔ need_quotes_spec s) ∧
    (run_scalar YamlWriter.new (ScalarValue.String "true")).out = "\"true\"" ∧
    (run_scalar YamlWriter.new (ScalarValue.String "null")).out = "\"null\"" ∧
    (run_scalar YamlWriter.new (ScalarValue.String "123")).out = "\"123\"" ∧
    (run_scalar YamlWriter.new (ScalarValue.String "3.14")).out = "\"3.14\"" ∧
    (run_scalar YamlWriter.new (ScalarValue.String " x")).out = "\" x\"" ∧
    (run_scalar YamlWriter.new (ScalarValue.String "x ")).out = "\"x \"" ∧
    (run_scalar YamlWriter.new (ScalarValue.String "hello")).out = "hello" ∧
    (run_scalar YamlWriter.new (ScalarValue.String "y")).out = "y" ∧
    (run_scalar YamlWriter.new (ScalarValue.String "Y")).out = "Y" ∧
    (run_scalar YamlWriter.new (ScalarValue.String "n")).out = "n" ∧
    (run_scalar YamlWriter.new (ScalarValue.String "N")).out = "N" := by
  refine ⟨?_, by decide, by decide, by decide, by decide, by decide, by decide,
    by decide, by decide, by decide, by decide, by decide⟩
  intro s
  unfold need_quotes need_quotes_spec
  simp only [Bool.or_eq_true, List.isEmpty_eq_true, data_nil_iff,
    startsWithChar_eq_true, List.any_eq_true, need_quotes_char_iff,
    need_quotes_first_char_iff, List.contains, List.elem_eq_mem,
    decide_eq_true_eq, reservedLiterals, or_assoc]

/-- C2 witness: the characterization applied at the concrete scalar `"3.14"`,
which satisfies the float condition of the quoting specification. -/
theorem need_quotes_characterization_witness :
    need_quotes "3.14" = true :=
  (need_quotes_characterization.1 "3.14").2
    (Or.inr (Or.inr (Or.inr (Or.inr (Or.inr (Or.inr (Or.inr (Or.inr
      (Or.inr (by decide))))))))))

/-- C3: `from_cow_str` classifies with exactly the stated precedence: `0x` (hex),
else `0o` (octal), else `+` (decimal) prefixed integers; when no prefix branch
applies or parses, exact `~`/`null` give `Null`, exact `true`/`false` give
`Boolean`, then a plain decimal signed 64-bit parse gives `Integer`, then the
core-schema float grammar gives `Real` carrying the original text, otherwise
`String` with the text unmodified; and no string that parses as a signed 64-bit
integer is ever classified `Real`. -/
theorem from_cow_str_precedence :
    (∀ s i, strStartsWith s "0x" = true →
      parse_i64_radix 16 (strDrop s 2) = some i →
      from_cow_str s = ScalarValue.Integer i) ∧
    (∀ s i, strStartsWith s "0x" = false → strStartsWith s "0o" = true →
      parse_i64_radix 8 (strDrop s 2) = some i →
      from_cow_str s = ScalarValue.Integer i) ∧
    (∀ s i, strStartsWith s "0x" = false → strStartsWith s "0o" = false →
      strStartsWith s "+" = true →
      parse_i64_radix 10 (strDrop s 1) = some i →
      from_cow_str s = ScalarValue.Integer i) ∧
    (from_cow_str "~" = ScalarValue.Null ∧ from_cow_str "null" = ScalarValue.Null ∧
      from_cow_str "true" = ScalarValue.Boolean true ∧
      from_cow_str "false" = ScalarValue.Boolean false) ∧
    (∀ s i, prefix_radix_int s = none → s ≠ "~" → s ≠ "null" → s ≠ "true" →
      s ≠ "false" → parse_i64_radix 10 s = some i →
      from_cow_str s = ScalarValue.Integer i) ∧
    (∀ s, prefix_radix_int s = none → s ≠ "~" → s ≠ "null" → s ≠ "true" →
      s ≠ "false" → parse_i64_radix 10 s = none → parse_f64_some s = true →
      from_cow_str s = ScalarValue.Real s) ∧
    (∀ s, prefix_radix_int s = none → s ≠ "~" → s ≠ "null" → s ≠ "true" →
      s ≠ "false" → parse_i64_radix 10 s = none → parse_f64_some s = false →
      from_cow_str s = ScalarValue.String s) ∧
    (∀ s, (parse_i64_radix 10 s).isSome = true →
      ∀ t, from_cow_str s ≠ ScalarValue.Real t) ∧
    (from_cow_str "0x2A" = ScalarValue.Integer 42 ∧
      from_cow_str "0o52" = ScalarValue.Integer 42 ∧
      from_cow_str "+5" = ScalarValue.Integer 5 ∧
      from_cow_str "42" = ScalarValue.Integer 42 ∧
      from_cow_str "3.14" = ScalarValue.Real "3.14" ∧
      from_cow_str ".inf" = ScalarValue.Real ".inf" ∧
      from_cow_str "foo" = ScalarValue.String "foo") := by
  refine ⟨?_, ?_, ?_, by decide, ?_, ?_, ?_, ?_, by decide⟩
  · intro s i h1 h2
    unfold from_cow_str prefix_radix_int
    simp [h1, h2]
  · intro s i h1 h2 h3
    unfold from_cow_str prefix_radix_int
    simp [h1, h2, h3]
  · intro s i h1 h2 h3 h4
    unfold from_cow_str prefix_radix_int
    simp [h1, h2, h3, h4]
  · intro s i hp h1 h2 h3 h4 hparse
    unfold from_cow_str
    rw [hp]
    simp [h1, h2, h3, h4, hparse]
  · intro s hp h1 h2 h3 h4 hparse hf
    unfold from_cow_str
    rw [hp]
    simp [h1, h2, h3, h4, hparse, hf]
  · intro s hp h1 h2 h3 h4 hparse hf
    unfold from_cow_str
    rw [hp]
    simp [h1, h2, h3, h4, hparse, hf]
  · intro s hsome t
    unfold from_cow_str
    cases hp : prefix_radix_int s with
    | some i => simp
    | none =>
      by_cases h1 : s = "~"
      · subst h1; exact absurd hsome (by decide)
      by_cases h2 : s = "null"
      · subst h2; exact absurd hsome (by decide)
      by_cases h3 : s = "true"
      · subst h3; exact absurd hsome (by decide)
      by_cases h4 : s = "false"
      · subst h4; exact absurd hsome (by decide)
      obtain ⟨i, hi⟩ := Option.isSome_iff_exists.mp hsome
      simp [h1, h2, h3, h4, hi]

/-- C3 witness: the precedence applied at concrete inputs — the hex branch on
`"0x2A"`, and the never-`Real` guarantee on `"42"`. -/
theorem from_cow_str_precedence_witness :
    from_cow_str "0x2A" = ScalarValue.Integer 42 ∧
    from_cow_str "42" ≠ ScalarValue.Real "42" :=
  ⟨from_cow_str_precedence.1 "0x2A" 42 (by decide) (by decide),
   from_cow_str_precedence.2.2.2.2.2.2.2.1 "42" (by decide) "42"⟩

/-- C4: `from_scalar_event` returns `String` unconditionally for any non-plain
style; for a plain scalar with a core-schema tag it dispatches on the suffix —
`bool` parses (`true`/`false` only) or yields `BadValue`, `int` parses as a
signed 64-bit integer or yields `BadValue`, `float` keeps the text as `Real`
only if the float grammar accepts it, `null` accepts only `~`/`null` literally,
any other suffix yields `String`; with no tag it falls back to `from_cow_str`.
A plain `"yes"` with an explicit `bool` tag yields `BadValue`, which renders as
`~`. -/
theorem from_scalar_event_dispatch :
    (∀ v a t, from_scalar_event v TScalarStyle.SingleQuoted a t = ScalarValue.String v ∧
      from_scalar_event v TScalarStyle.DoubleQuoted a t = ScalarValue.String v ∧
      from_scalar_event v TScalarStyle.Literal a t = ScalarValue.String v ∧
      from_scalar_event v TScalarStyle.Folded a t = ScalarValue.String v) ∧
    (∀ v a, from_scalar_event v TScalarStyle.Plain a
        (some ⟨"tag:yaml.org,2002:", "bool"⟩) =
      (if v = "true" then ScalarValue.Boolean true
       else if v = "false" then ScalarValue.Boolean false
       else ScalarValue.BadValue)) ∧
    (∀ v a, from_scalar_event v TScalarStyle.Plain a
        (some ⟨"tag:yaml.org,2002:", "int"⟩) =
      (match parse_i64_radix 10 v with
       | some i => ScalarValue.Integer i
       | none => ScalarValue.BadValue)) ∧
    (∀ v a, from_scalar_event v TScalarStyle.Plain a
        (some ⟨"tag:yaml.org,2002:", "float"⟩) =
      (if parse_f64_some v then ScalarValue.Real v else ScalarValue.BadValue)) ∧
    (∀ v a, from_scalar_event v TScalarStyle.Plain a
        (some ⟨"tag:yaml.org,2002:", "null"⟩) =
      (if v = "~" ∨ v = "null" then ScalarValue.Null else ScalarValue.BadValue)) ∧
    (∀ v a suf, suf ≠ "bool" → suf ≠ "int" → suf ≠ "float" → suf ≠ "null" →
      from_scalar_event v TScalarStyle.Plain a (some ⟨"tag:yaml.org,2002:", suf⟩) =
        ScalarValue.String v) ∧
    (∀ v a, from_scalar_event v TScalarStyle.Plain a none = from_cow_str v) ∧
    (from_scalar_event "yes" TScalarStyle.Plain 0
        (some ⟨"tag:yaml.org,2002:", "bool"⟩) = ScalarValue.BadValue ∧
      (run_scalar YamlWriter.new ScalarValue.BadValue).out = "~") := by
  refine ⟨?_, ?_, ?_, ?_, ?_, ?_, ?_, by decide⟩
  · intro v a t
    exact ⟨rfl, rfl, rfl, rfl⟩
  · intro v a
    simp [from_scalar_event]
  · intro v a
    simp [from_scalar_event]
  · intro v a
    simp [from_scalar_event]
  · intro v a
    simp only [from_scalar_event]
    split_ifs <;> simp_all
  · intro v a suf h1 h2 h3 h4
    simp [from_scalar_event, h1, h2, h3, h4]
  · intro v a
    rfl

/-- C4 witness: the other-suffix rule applied at the concrete suffix `"str"`. -/
theorem from_scalar_event_dispatch_witness :
    from_scalar_event "x" TScalarStyle.Plain 0 (some ⟨"tag:yaml.org,2002:", "str"⟩) =
      ScalarValue.String "x" :=
  from_scalar_event_dispatch.2.2.2.2.2.1 "x" 0 "str"
    (by decide) (by decide) (by decide) (by decide)

/-- C5: with multiline rendering enabled, a string containing a newline that the
literal-block validity check accepts renders as a literal block — header `|`
when the text ends with a newline, `|-` otherwise, then each split line (a final
empty line not re-emitted) preceded by a newline and one extra level of
indentation, the level being restored afterwards; the same string
`"line1\nline2\n"` with multiline rendering disabled renders double-quoted
with `\n` escapes. -/
theorem multiline_literal_block (w : YamlWriter) (s : String)
    (hm : w.multiline_strings = true) (hn : s.data.contains '\n' = true)
    (hv : is_valid_literal_block_scalar s = true) :
    ((run_scalar w (ScalarValue.String s)).out =
      w.out ++ (if strEndsWith s "\n" then "|" else "|-")
        ++ String.join ((rustLines s).map fun l =>
            "\n" ++ indentStr (w.level + 1) w.ident_size ++ l) ∧
     (run_scalar w (ScalarValue.String s)).level = w.level) ∧
    (run_scalar { YamlWriter.new with multiline_strings := false }
        (ScalarValue.String "line1\nline2\n")).out = "\"line1\\nline2\\n\"" := by
  have hcond : (w.multiline_strings && s.data.contains '\n'
      && is_valid_literal_block_scalar s) = true := by
    rw [hm, hn, hv]
    rfl
  have hblock : run_scalar w (ScalarValue.String s) = write_literal_block w s := by
    unfold run_scalar
    simp only [hcond, if_true]
  refine ⟨⟨?_, ?_⟩, by decide⟩
  · rw [hblock, write_literal_block_out]
  · rw [hblock]
    exact (write_literal_block_shape w s).2.2.2.2.1

/-- C5 witness: the literal-block rendering applied to `"line1\nline2\n"` on a
fresh writer, giving the block `|` header and the two indented lines. -/
theorem multiline_literal_block_witness :
    YamlWriter.new.multiline_strings = true ∧
    ("line1\nline2\n".data.contains '\n' = true) ∧
    is_valid_literal_block_scalar "line1\nline2\n" = true ∧
    (run_scalar YamlWriter.new (ScalarValue.String "line1\nline2\n")).out
      = "|\nline1\nline2" :=
  ⟨rfl, by decide, by decide, by
    have h := multiline_literal_block YamlWriter.new "line1\nline2\n" rfl
      (by decide) (by decide)
    exact h.1.1.trans (by decide)⟩

/-- C7: with the default configuration (`omit_first_doc_separator = true`),
three documents holding the bare scalars `a`, `b`, `c` render as
`a\n---\nb\n---\nc`: no leading `---`, no leading blank line, and
newline-`---`-newline before each subsequent document. -/
theorem three_documents_default_separators :
    (runEvents YamlWriter.new
      [WriteEvent.StreamStart, WriteEvent.DocumentStart,
       WriteEvent.Scalar (ScalarValue.String "a"), WriteEvent.DocumentEnd,
       WriteEvent.DocumentStart, WriteEvent.Scalar (ScalarValue.String "b"),
       WriteEvent.DocumentEnd, WriteEvent.DocumentStart,
       WriteEvent.Scalar (ScalarValue.String "c"), WriteEvent.DocumentEnd,
       WriteEvent.StreamEnd]).1.out = "a\n---\nb\n---\nc" ∧
    (runEvents YamlWriter.new
      [WriteEvent.StreamStart, WriteEvent.DocumentStart,
       WriteEvent.Scalar (ScalarValue.String "a"), WriteEvent.DocumentEnd,
       WriteEvent.DocumentStart, WriteEvent.Scalar (ScalarValue.String "b"),
       WriteEvent.DocumentEnd, WriteEvent.DocumentStart,
       WriteEvent.Scalar (ScalarValue.String "c"), WriteEvent.DocumentEnd,
       WriteEvent.StreamEnd]).2 = none := by
  exact ⟨by decide, by decide⟩

